import Mathlib

/-!
Shallow embedding of the banking backend (tRPC routers `auth`, `account`
and the context builder in `trpc.ts`).

The store (`db` in the source, a relational store accessed through drizzle)
is modelled as explicit lists of rows; each awaited store call of the source
becomes one pure update of this state.  `select ... .get()` is `List.find?`
on the row list, `insert` appends a row (ids are assigned by counters that
model the autoincrement primary keys), `delete ... where` filters the list,
and `update ... set balance = balance + amount` maps over the list adding to
the balance stored at update time (the store-level additive update of the
source).  Monetary amounts are exact rationals (the store arithmetic is
exact for the values in scope).  Timestamps are integer milliseconds, as in
`Date.now()`.  External primitives (jwt sign/verify, bcrypt compare, the
secure random number generator) are passed in as parameters, as the spec
treats them as external collaborators.  Profile columns of the users table
(name, phone, date of birth, address, ssn) are carried by no claim and are
omitted from the row type.
-/

/-- Account type enum of the accounts table: checking | savings. -/
inductive AccountType where
  | checking
  | savings
deriving DecidableEq, Repr

/-- Account status enum of the accounts table: active | pending | closed. -/
inductive AccountStatus where
  | active
  | pending
  | closed
deriving DecidableEq, Repr

/-- Transaction type; `fundAccount` only creates deposits. -/
inductive TxType where
  | deposit
deriving DecidableEq, Repr

/-- Transaction status; `fundAccount` inserts rows with status completed. -/
inductive TxStatus where
  | completed
deriving DecidableEq, Repr

/-- Funding source type of the `fundAccount` input: card | bank. -/
inductive FundingType where
  | card
  | bank
deriving DecidableEq, Repr

/-- String rendering of a funding type, used in the transaction description
template string of the source. -/
def fundingTypeStr : FundingType → String
  | .card => "card"
  | .bank => "bank"

/-- String rendering of an account type, used in the CONFLICT message
template string of `createAccount`. -/
def accountTypeStr : AccountType → String
  | .checking => "checking"
  | .savings => "savings"

/-- A row of the users table (claim-relevant columns). -/
structure User where
  id : Nat
  email : String
  password : String
deriving DecidableEq, Repr

/-- A row of the sessions table: token, owning userId, absolute expiry
timestamp in ms. -/
structure Session where
  token : String
  userId : Nat
  expiresAt : Int
deriving DecidableEq, Repr

/-- A row of the accounts table. -/
structure Account where
  id : Nat
  userId : Nat
  accountNumber : String
  accountType : AccountType
  balance : ℚ
  status : AccountStatus
deriving DecidableEq, Repr

/-- A row of the transactions table.  `createdAt` is filled by the schema
default clock at insert time; it is modelled as the call's now, like
`processedAt` (`new Date().toISOString()`). -/
structure Transaction where
  id : Nat
  accountId : Nat
  typ : TxType
  amount : ℚ
  description : String
  status : TxStatus
  createdAt : Int
  processedAt : Int
deriving DecidableEq, Repr

/-- The relational store: one list per table plus the autoincrement
counters of the integer primary keys. -/
structure DB where
  users : List User
  sessions : List Session
  accounts : List Account
  transactions : List Transaction
  nextUserId : Nat
  nextAccountId : Nat
  nextTxId : Nat
deriving DecidableEq, Repr

/-- The TRPCError codes raised by the embedded routers, with the message
strings of the source. -/
inductive TRPCErr where
  | unauthorized (msg : Option String)
  | conflict (msg : String)
  | notFound (msg : String)
  | badRequest (msg : String)
  | internal (msg : String)
deriving DecidableEq, Repr

/-- `db.select().from(accounts).where(and(eq(accounts.id, aid), eq(accounts.userId, uid))).get()` -/
def findAccountOwned (l : List Account) (aid uid : Nat) : Option Account :=
  l.find? (fun a => a.id == aid && a.userId == uid)

/-- `db.select().from(accounts).where(eq(accounts.id, aid)).get()` -/
def findAccountById (l : List Account) (aid : Nat) : Option Account :=
  l.find? (fun a => a.id == aid)

/-- `db.select().from(accounts).where(and(eq(accounts.userId, uid), eq(accounts.accountType, t))).get()` -/
def findAccountOwnedByType (l : List Account) (uid : Nat) (t : AccountType) : Option Account :=
  l.find? (fun a => a.userId == uid && a.accountType == t)

/-- `db.update(accounts).set({balance: sql(balance + amount)}).where(eq(accounts.id, aid))`:
the store adds `amount` to the balance it holds at update time. -/
def updateBalanceAdd (l : List Account) (aid : Nat) (amount : ℚ) : List Account :=
  l.map (fun a => if a.id == aid then { a with balance := a.balance + amount } else a)

/-! ## Luhn check (`isValidCardNumber`, account.ts lines 120-136) -/

/-- One doubled Luhn digit: `digit *= 2; if (digit > 9) digit -= 9`. -/
def doubleDigit (d : Nat) : Nat :=
  if 2 * d > 9 then 2 * d - 9 else 2 * d

/-- The Luhn sum of a digit list given in right-to-left order, with the
alternating `shouldDouble` flag of the source loop (false at the rightmost
digit, toggled at each step). -/
def luhnAux : List Nat → Bool → Nat
  | [], _ => 0
  | d :: rest, dbl => (if dbl then doubleDigit d else d) + luhnAux rest (!dbl)

/-- `isValidCardNumber`: strip every non-digit character
(`cardNumber.replace(/\D/g, "")`), Luhn-sum the digits from the rightmost
leftwards, and accept when the sum is divisible by 10. -/
def isValidCardNumber (cardNumber : String) : Bool :=
  let digits := (cardNumber.data.filter Char.isDigit).map (fun c => c.toNat - 48)
  luhnAux digits.reverse false % 10 == 0

/-! ## Session validation (`createContext`, trpc.ts lines 42-70) -/

/-- Outcome of the body of the try block in `createContext`: either a normal
completion carrying the resolved user (null stays `none`), or a thrown
error. -/
inductive InnerResult where
  | ok (user : Option User)
  | thrown (e : TRPCErr)
deriving DecidableEq, Repr

/-- The body of the try block of `createContext` (trpc.ts lines 43-66):
verify the jwt (a failed verification throws, modelled by `jwtVerify`
returning none), look the session up by token, and apply the expiry policy.
The early-expiry branch first awaits the session delete (a durable effect)
and then throws UNAUTHORIZED "Session expired". -/
def validateInner (jwtVerify : String → Option Nat) (db : DB) (token : String)
    (now : Int) : InnerResult × DB :=
  match jwtVerify token with
  | none => (.thrown (.internal "jwt verification failed"), db)
  | some decodedUserId =>
    match db.sessions.find? (fun s => s.token == token) with
    | none => (.ok none, db)
    | some session =>
      let expiresAtMs := session.expiresAt
      let earlyExpiryWindow : Int := 60000
      if expiresAtMs - now ≤ earlyExpiryWindow then
        (.thrown (.unauthorized (some "Session expired")),
         { db with sessions := db.sessions.filter (fun s => !(s.token == token)) })
      else if expiresAtMs > now then
        (.ok (db.users.find? (fun u => u.id == decodedUserId)), db)
      else
        (.ok none, db)

/-- `createContext`: with no token (or the empty cookie value, falsy in the
source) the user is null; otherwise the try body runs and the catch clause
swallows every thrown error, leaving user null (`// Invalid session → ignore`).
The store effects performed before the throw persist. -/
def createContext (jwtVerify : String → Option Nat) (db : DB) (token : String)
    (now : Int) : Option User × DB :=
  if token = "" then (none, db)
  else
    match validateInner jwtVerify db token now with
    | (.ok u, db1) => (u, db1)
    | (.thrown _, db1) => (none, db1)

/-! ## Auth router (`auth.ts`) -/

/-- Result of a successful signup or login: the user (password omitted in
the source response) and the issued token. -/
structure AuthResult where
  user : User
  token : String
deriving DecidableEq, Repr

/-- Seven days in milliseconds, the session lifetime
(`expiresAt.setDate(expiresAt.getDate() + 7)`, modelled as now + 7 times 24h). -/
def sevenDaysMs : Int := 604800000

/-- `signup` (auth.ts lines 58-95), restricted to its store effects: reject
CONFLICT when the email is taken, insert the user row, re-read it by email
(INTERNAL_SERVER_ERROR when the re-read finds nothing), then insert a
session row for the new token.  The zod input gate and the cookie header are
upstream and transport concerns; `hashedPassword` stands for the bcrypt hash
and `token` for the signed jwt. -/
def signup (db : DB) (email hashedPassword token : String) (now : Int) :
    Except TRPCErr AuthResult × DB :=
  match db.users.find? (fun u => u.email == email) with
  | some _ => (.error (.conflict "User already exists"), db)
  | none =>
    let newUser : User := { id := db.nextUserId, email := email, password := hashedPassword }
    let db1 := { db with users := db.users ++ [newUser], nextUserId := db.nextUserId + 1 }
    match db1.users.find? (fun u => u.email == email) with
    | none => (.error (.internal "Failed to create user"), db1)
    | some user =>
      let db2 := { db1 with sessions :=
        db1.sessions ++ [{ token := token, userId := user.id, expiresAt := now + sevenDaysMs }] }
      (.ok { user := user, token := token }, db2)

/-- `login` (auth.ts lines 101-124): look the user up by email, check the
password (`bcryptCompare` stands for bcrypt.compare; both failures answer
UNAUTHORIZED "Invalid credentials"), delete every prior session of the user,
then insert the one new session. -/
def login (bcryptCompare : String → String → Bool) (db : DB)
    (email password token : String) (now : Int) :
    Except TRPCErr AuthResult × DB :=
  match db.users.find? (fun u => u.email == email) with
  | none => (.error (.unauthorized (some "Invalid credentials")), db)
  | some user =>
    if bcryptCompare password user.password then
      let db1 := { db with sessions :=
        (db.sessions.filter (fun s => !(s.userId == user.id))) ++
          [{ token := token, userId := user.id, expiresAt := now + sevenDaysMs }] }
      (.ok { user := user, token := token }, db1)
    else
      (.error (.unauthorized (some "Invalid credentials")), db)

/-! ## Account router (`account.ts`) -/

/-- The first candidate account number not already present in the store:
the body of the `while (!isUnique)` loop of `createAccount`, with the draws
of `generateAccountNumber` supplied as the list `cands`. -/
def firstFresh (cands : List String) (l : List Account) : Option String :=
  match cands with
  | [] => none
  | c :: rest =>
    match l.find? (fun a => a.accountNumber == c) with
    | none => some c
    | some _ => firstFresh rest l

/-- The account row inserted by `createAccount`: balance 0, status active,
the id assigned by the autoincrement primary key. -/
def newAccountRow (db : DB) (uid : Nat) (t : AccountType) (n : String) : Account :=
  { id := db.nextAccountId, userId := uid, accountNumber := n,
    accountType := t, balance := 0, status := .active }

/-- The store after the `db.insert(accounts).values(...)` call of
`createAccount`. -/
def dbAfterInsertAccount (db : DB) (uid : Nat) (t : AccountType) (n : String) : DB :=
  { db with accounts := db.accounts ++ [newAccountRow db uid t n],
            nextAccountId := db.nextAccountId + 1 }

/-- `createAccount` (account.ts lines 29-76): CONFLICT when the user already
owns an account of the type; otherwise draw account numbers until a free one
is found (`none` models the unbounded retry loop never terminating because
every supplied draw collides), insert the account with balance 0 and status
active, and re-read it by account number; when the re-read finds nothing the
source answers a synthesized non-persisted pending projection (its createdAt
column is claim-irrelevant and omitted). -/
def createAccount (db : DB) (uid : Nat) (t : AccountType) (cands : List String) :
    Option (Except TRPCErr Account × DB) :=
  match findAccountOwnedByType db.accounts uid t with
  | some _ =>
    some (.error (.conflict ("You already have a " ++ accountTypeStr t ++ " account")), db)
  | none =>
    match firstFresh cands db.accounts with
    | none => none
    | some n =>
      let db1 := dbAfterInsertAccount db uid t n
      match db1.accounts.find? (fun a => a.accountNumber == n) with
      | some a => some (.ok a, db1)
      | none => some (.ok { id := 0, userId := uid, accountNumber := n, accountType := t,
                            balance := 0, status := .pending }, db1)

/-- Input of `fundAccount` after the zod gate (the gate enforces
`amount.positive()`; `parseFloat(input.amount.toString())` is the identity
on an already numeric amount). -/
structure FundInput where
  accountId : Nat
  amount : ℚ
  fundingType : FundingType
  fundingAccountNumber : String
deriving DecidableEq, Repr

/-- Response of `fundAccount`: `{transactionId, newBalance}`. -/
structure FundResult where
  transactionId : Nat
  newBalance : ℚ
deriving DecidableEq, Repr

/-- Step (1) of `fundAccount` (account.ts lines 142-152): insert the deposit
transaction row with status completed and return the new row id
(`.returning({id})`). -/
def insertDepositTx (db : DB) (aid : Nat) (amount : ℚ) (src : FundingType)
    (now : Int) : DB × Nat :=
  let tx : Transaction :=
    { id := db.nextTxId, accountId := aid, typ := .deposit,
      amount := amount, description := "Funding from " ++ fundingTypeStr src,
      status := .completed, createdAt := now, processedAt := now }
  ({ db with transactions := db.transactions ++ [tx], nextTxId := db.nextTxId + 1 },
   db.nextTxId)

/-- Step (2) of `fundAccount` (account.ts lines 155-160): the store-level
additive balance update. -/
def applyBalanceAdd (db : DB) (aid : Nat) (amount : ℚ) : DB :=
  { db with accounts := updateBalanceAdd db.accounts aid amount }

/-- `fundAccount` (account.ts lines 96-173): ownership check (NOT_FOUND),
active check (BAD_REQUEST), Luhn gate for card funding sources
(BAD_REQUEST), then the transaction insert, the additive balance update, and
the re-read reporting the new balance (falling back to the pre-update
balance when the re-read finds nothing). -/
def fundAccount (db : DB) (uid : Nat) (input : FundInput) (now : Int) :
    Except TRPCErr FundResult × DB :=
  match findAccountOwned db.accounts input.accountId uid with
  | none => (.error (.notFound "Account not found"), db)
  | some account =>
    if account.status ≠ .active then
      (.error (.badRequest "Account is not active"), db)
    else if input.fundingType = .card ∧ isValidCardNumber input.fundingAccountNumber = false then
      (.error (.badRequest "Invalid card number"), db)
    else
      let step1 := insertDepositTx db input.accountId input.amount input.fundingType now
      let db2 := applyBalanceAdd step1.1 input.accountId input.amount
      let newBalance :=
        match findAccountById db2.accounts input.accountId with
        | some a => a.balance
        | none => account.balance
      (.ok { transactionId := step1.2, newBalance := newBalance }, db2)

/-- The sequence of durable store states produced by one `fundAccount` call:
the source awaits the transaction insert and the balance update as two
separate store calls with no enclosing store transaction, so the state
after the insert alone is durable on its own (a failure of the process or
of the second call leaves it in place). -/
def fundAccountDurableStates (db : DB) (uid : Nat) (input : FundInput) (now : Int) :
    List DB :=
  match findAccountOwned db.accounts input.accountId uid with
  | none => [db]
  | some account =>
    if account.status ≠ .active then [db]
    else if input.fundingType = .card ∧ isValidCardNumber input.fundingAccountNumber = false then [db]
    else
      let step1 := insertDepositTx db input.accountId input.amount input.fundingType now
      [db, step1.1, applyBalanceAdd step1.1 input.accountId input.amount]

/-- A transaction row as returned by `getTransactions`: the stored row
enriched with the owning account type computed at read time
(`accountDetails?.accountType`, hence an optional value). -/
structure EnrichedTx where
  tx : Transaction
  accountType : Option AccountType
deriving DecidableEq, Repr

/-- Newest-first order of the `orderBy(desc(transactions.createdAt),
desc(transactions.id))` clause: a row precedes another when it was created
later, ties broken by the larger id. -/
def txNewerEq (a b : Transaction) : Prop :=
  b.createdAt < a.createdAt ∨ (b.createdAt = a.createdAt ∧ b.id ≤ a.id)

instance : DecidableRel txNewerEq := fun a b => by
  unfold txNewerEq; infer_instance

instance : IsTotal Transaction txNewerEq where
  total a b := by
    unfold txNewerEq
    omega

instance : IsTrans Transaction txNewerEq where
  trans a b c hab hbc := by
    unfold txNewerEq at *
    omega

/-- `getTransactions` (account.ts lines 181-229): ownership check identical
to `fundAccount` (NOT_FOUND), then the rows of the account ordered by
(createdAt desc, id desc) — the store ORDER BY is modelled by insertion
sort with `txNewerEq` — each enriched in the follow-up loop with the account
type found by the per-row account lookup. -/
def getTransactions (db : DB) (uid : Nat) (aid : Nat) :
    Except TRPCErr (List EnrichedTx) × DB :=
  match findAccountOwned db.accounts aid uid with
  | none => (.error (.notFound "Account not found"), db)
  | some _ =>
    let rows := (db.transactions.filter (fun t => t.accountId == aid)).insertionSort txNewerEq
    let enriched := rows.map (fun t =>
      { tx := t, accountType := (findAccountById db.accounts t.accountId).map Account.accountType })
    (.ok enriched, db)

/-! ## Helper lemmas -/

/-- An account found by the (id, userId) ownership query has that id and
owner and belongs to the table. -/
lemma findAccountOwned_spec {l : List Account} {aid uid : Nat} {acct : Account}
    (h : findAccountOwned l aid uid = some acct) :
    acct.id = aid ∧ acct.userId = uid ∧ acct ∈ l := by
  have hp := List.find?_some h
  have hm := List.mem_of_find?_eq_some h
  simp only [Bool.and_eq_true, beq_iff_eq] at hp
  exact ⟨hp.1, hp.2, hm⟩

/-- With distinct account ids, the row found by the (id, userId) ownership
query is also the row found by the plain id query. -/
lemma findById_of_findOwned {l : List Account} {aid uid : Nat} {acct : Account}
    (hnd : (l.map Account.id).Nodup)
    (h : findAccountOwned l aid uid = some acct) :
    findAccountById l aid = some acct := by
  induction l with
  | nil => simp [findAccountOwned] at h
  | cons a tl ih =>
    rw [List.map_cons, List.nodup_cons] at hnd
    by_cases hid : (a.id == aid) = true
    · by_cases huid : (a.userId == uid) = true
      · have ha : a = acct := by
          unfold findAccountOwned at h
          rw [List.find?_cons, hid, huid] at h
          simpa using h
        subst ha
        unfold findAccountById
        rw [List.find?_cons, hid]
      · have huid' : (a.userId == uid) = false := by simpa using huid
        have htl : findAccountOwned tl aid uid = some acct := by
          unfold findAccountOwned at h ⊢
          rw [List.find?_cons, hid, huid'] at h
          simpa using h
        have hspec := findAccountOwned_spec htl
        exfalso
        apply hnd.1
        rw [beq_iff_eq.mp hid]
        exact List.mem_map.mpr ⟨acct, hspec.2.2, hspec.1⟩
    · have hid' : (a.id == aid) = false := by simpa using hid
      have htl : findAccountOwned tl aid uid = some acct := by
        unfold findAccountOwned at h ⊢
        rw [List.find?_cons, hid'] at h
        simpa using h
      unfold findAccountById
      rw [List.find?_cons, hid']
      exact ih hnd.2 htl

/-- The additive balance update changes the row found by id by exactly the
added amount. -/
lemma findById_updateBalanceAdd {l : List Account} {aid : Nat} (amt : ℚ) {acct : Account}
    (h : findAccountById l aid = some acct) :
    findAccountById (updateBalanceAdd l aid amt) aid =
      some { acct with balance := acct.balance + amt } := by
  induction l with
  | nil => simp [findAccountById] at h
  | cons a tl ih =>
    by_cases hid : (a.id == aid) = true
    · have ha : a = acct := by
        unfold findAccountById at h
        rw [List.find?_cons, hid] at h
        simpa using h
      subst ha
      unfold findAccountById updateBalanceAdd
      simp only [List.map_cons, hid, if_true]
      rw [List.find?_cons,
        show ((({ a with balance := a.balance + amt } : Account).id == aid) = true) from hid]
    · have hid' : (a.id == aid) = false := by simpa using hid
      have htl : findAccountById tl aid = some acct := by
        unfold findAccountById at h ⊢
        rw [List.find?_cons, hid'] at h
        simpa using h
      have := ih htl
      unfold findAccountById updateBalanceAdd at this ⊢
      simp only [List.map_cons, hid', Bool.false_eq_true, if_false]
      rw [List.find?_cons, show ((a.id == aid) = false) from hid']
      exact this

/-- The candidate returned by the retry loop collides with no stored
account number. -/
lemma firstFresh_spec {cands : List String} {l : List Account} {n : String}
    (h : firstFresh cands l = some n) :
    l.find? (fun a => a.accountNumber == n) = none := by
  induction cands with
  | nil => simp [firstFresh] at h
  | cons c rest ih =>
    unfold firstFresh at h
    cases hf : l.find? (fun a => a.accountNumber == c) with
    | none =>
      rw [hf] at h
      have : c = n := by injection h
      rw [← this]
      exact hf
    | some a =>
      rw [hf] at h
      exact ih h

/-- `find?` over an append whose left part has no match searches the right
part. -/
lemma find?_append_left_none {α : Type} {p : α → Bool} {l1 l2 : List α}
    (h : l1.find? p = none) : (l1 ++ l2).find? p = l2.find? p := by
  rw [List.find?_append, h, Option.none_or]

/-- The guard-passing path of `fundAccount` in one equation: the inserted
row, the additively updated store, and the response computed from the
re-read. -/
lemma fundAccount_success_eq {db : DB} {uid : Nat} {input : FundInput} {now : Int}
    {acct : Account}
    (hnd : (db.accounts.map Account.id).Nodup)
    (hown : findAccountOwned db.accounts input.accountId uid = some acct)
    (hact : acct.status = .active)
    (hcard : input.fundingType = .card → isValidCardNumber input.fundingAccountNumber = true) :
    fundAccount db uid input now =
      (.ok { transactionId := db.nextTxId, newBalance := acct.balance + input.amount },
       { db with
         accounts := updateBalanceAdd db.accounts input.accountId input.amount,
         transactions := db.transactions ++
           [{ id := db.nextTxId, accountId := input.accountId, typ := .deposit,
              amount := input.amount,
              description := "Funding from " ++ fundingTypeStr input.fundingType,
              status := .completed, createdAt := now, processedAt := now }],
         nextTxId := db.nextTxId + 1 }) := by
  have hgate : ¬(input.fundingType = .card ∧ isValidCardNumber input.fundingAccountNumber = false) := by
    rintro ⟨h1, h2⟩
    rw [hcard h1] at h2
    cases h2
  have hupd := findById_updateBalanceAdd input.amount (findById_of_findOwned hnd hown)
  simp only [fundAccount, hown]
  rw [if_neg (by simp [hact])]
  rw [if_neg hgate]
  simp only [insertDepositTx, applyBalanceAdd, hupd]

/-! ## Concrete fixtures used by closed theorems and witnesses -/

/-- An active checking account with balance 100 owned by user 1. -/
def wAcct : Account :=
  { id := 1, userId := 1, accountNumber := "0000000001",
    accountType := .checking, balance := 100, status := .active }

/-- The user owning `wAcct`; the password field holds the stored hash. -/
def wUser : User := { id := 1, email := "a@b.c", password := "h" }

/-- A store holding one user and the account `wAcct`. -/
def wDB : DB :=
  { users := [wUser],
    sessions := [], accounts := [wAcct], transactions := [],
    nextUserId := 2, nextAccountId := 2, nextTxId := 1 }

/-- A bank funding request of 50 against account 1. -/
def wInput : FundInput :=
  { accountId := 1, amount := 50, fundingType := .bank, fundingAccountNumber := "123" }

/-- A jwt verifier accepting exactly the token "tok1" for user 1. -/
def wJwt : String → Option Nat := fun t => if t == "tok1" then some 1 else none

/-- The session behind "tok1", 30 seconds from expiry at time 1000000000. -/
def wEarlySession : Session := { token := "tok1", userId := 1, expiresAt := 1000030000 }

/-- A store whose only session is `wEarlySession`. -/
def wEarlyDB : DB := { wDB with sessions := [wEarlySession] }

/-- `wEarlyDB` after its session row is deleted. -/
def wEmptySessDB : DB := { wDB with sessions := [] }

/-- The session behind "tok1", 100 seconds past expiry at time 1000000000. -/
def wStaleSession : Session := { token := "tok1", userId := 1, expiresAt := 999900000 }

/-- A store whose only session is `wStaleSession`. -/
def wStaleDB : DB := { wDB with sessions := [wStaleSession] }

/-! ## Claim theorems -/

/-- Claim C1.  The claim states that every `fundAccount` call performs the
deposit-transaction insert and the additive balance update as a single
all-or-nothing unit, so that no execution leaves a completed deposit
transaction recorded whose amount is not reflected in the account balance.
The source awaits the two writes as separate store calls with no
transaction boundary, so the state after the insert alone is durable: this
theorem evaluates that durable intermediate state at a concrete input and
shows it records a completed deposit of 50 while the account balance is
still the pre-call 100. -/
theorem fundAccount_nonatomic_midstate :
    (insertDepositTx wDB 1 50 .bank 7).1 ∈ fundAccountDurableStates wDB 1 wInput 7
    ∧ (insertDepositTx wDB 1 50 .bank 7).1.transactions.length = 1
    ∧ (∀ tx ∈ (insertDepositTx wDB 1 50 .bank 7).1.transactions,
        tx.typ = .deposit ∧ tx.status = .completed ∧ tx.amount = 50 ∧ tx.accountId = 1)
    ∧ findAccountById (insertDepositTx wDB 1 50 .bank 7).1.accounts 1 = some wAcct := by
  decide

/-- Claim C2.  The claim states that validating a token whose session is
within 60 seconds of expiry deletes the Session row and fails with
UNAUTHORIZED ("Session expired"), the caller observing an authentication
error rather than an Anonymous identity, and that re-validation then yields
Anonymous.  In the source, the throw sits inside the try block of
`createContext` whose catch clause ignores every error: this theorem
evaluates the code at a session 30 seconds from expiry and shows the inner
body does throw UNAUTHORIZED ("Session expired") after deleting the row,
yet `createContext` returns the Anonymous identity (user = none) to its
caller, and re-validation of the same token again yields Anonymous. -/
theorem earlyExpiry_error_swallowed :
    validateInner wJwt wEarlyDB "tok1" 1000000000 =
      (.thrown (.unauthorized (some "Session expired")), wEmptySessDB)
    ∧ createContext wJwt wEarlyDB "tok1" 1000000000 = (none, wEmptySessDB)
    ∧ createContext wJwt wEmptySessDB "tok1" 1000000000 = (none, wEmptySessDB) := by
  refine ⟨?_, ?_, ?_⟩ <;> rfl

/-- Claim C6, counterexample.  The claim states that a session already
strictly expired and outside the 60-second early-expiry window is left
undeleted by validation.  At a session 100 seconds past expiry the code
deletes the row: `expiresAt - now` is negative, hence under the 60-second
threshold, so the early-expiry branch fires and removes it. -/
theorem stale_session_deleted_counterexample :
    (createContext wJwt wStaleDB "tok1" 1000000000).1 = none
    ∧ wStaleSession ∈ wStaleDB.sessions
    ∧ wStaleSession ∉ (createContext wJwt wStaleDB "tok1" 1000000000).2.sessions := by
  decide

/-- Claim C6, amended.  For every token whose stored session is strictly
expired (expiresAt < now), validation treats the caller as Anonymous — the
UNAUTHORIZED thrown inside the try block is swallowed — but deletes the
Session row: every strictly expired session satisfies
expiresAt - now <= 60000, so the early-expiry branch handles it and the
leave-the-stale-row path of the source is unreachable. -/
theorem strictly_expired_deleted (jwtVerify : String → Option Nat) (db : DB)
    (token : String) (now : Int) (uid : Nat) (session : Session)
    (htok : token ≠ "")
    (hjwt : jwtVerify token = some uid)
    (hfind : db.sessions.find? (fun s => s.token == token) = some session)
    (hexp : session.expiresAt < now) :
    createContext jwtVerify db token now =
      (none, { db with sessions := db.sessions.filter (fun s => !(s.token == token)) }) := by
  have hle : session.expiresAt - now ≤ 60000 := by omega
  simp only [createContext, validateInner, hjwt, hfind, if_neg htok]
  rw [if_pos hle]

/-- Witness for the amended claim C6 at the concrete stale store. -/
theorem strictly_expired_deleted_witness :
    ("tok1" : String) ≠ ""
    ∧ wJwt "tok1" = some 1
    ∧ wStaleDB.sessions.find? (fun s => s.token == "tok1") = some wStaleSession
    ∧ wStaleSession.expiresAt < 1000000000
    ∧ createContext wJwt wStaleDB "tok1" 1000000000 =
        (none, { wStaleDB with
                 sessions := wStaleDB.sessions.filter (fun s => !(s.token == "tok1")) }) :=
  ⟨by decide, by decide, by decide, by decide,
   strictly_expired_deleted wJwt wStaleDB "tok1" 1000000000 1 wStaleSession
     (by decide) (by decide) (by decide) (by decide)⟩

/-- Claim C3.  For every successful `fundAccount` call with positive amount
A on an active account the caller owns with balance B: the account found by
id afterwards has balance exactly B + A (the additive update applied to the
stored balance), exactly one new transaction row is appended, with type
deposit, status completed and amount A, and the call returns the new
transaction id together with the post-update balance B + A. -/
theorem fundAccount_success_effects (db : DB) (uid : Nat) (input : FundInput)
    (now : Int) (acct : Account)
    (hnd : (db.accounts.map Account.id).Nodup)
    (hown : findAccountOwned db.accounts input.accountId uid = some acct)
    (hact : acct.status = .active)
    (_hpos : 0 < input.amount)
    (hcard : input.fundingType = .card → isValidCardNumber input.fundingAccountNumber = true) :
    (fundAccount db uid input now).1 =
        .ok { transactionId := db.nextTxId, newBalance := acct.balance + input.amount }
    ∧ (fundAccount db uid input now).2.transactions =
        db.transactions ++
          [{ id := db.nextTxId, accountId := input.accountId, typ := .deposit,
             amount := input.amount,
             description := "Funding from " ++ fundingTypeStr input.fundingType,
             status := .completed, createdAt := now, processedAt := now }]
    ∧ findAccountById (fundAccount db uid input now).2.accounts input.accountId =
        some { acct with balance := acct.balance + input.amount } := by
  rw [fundAccount_success_eq hnd hown hact hcard]
  refine ⟨rfl, rfl, ?_⟩
  exact findById_updateBalanceAdd input.amount (findById_of_findOwned hnd hown)

/-- Witness for claim C3: funding the concrete account of balance 100 with
50 yields balance 150, one completed deposit row and the response
(transactionId 1, newBalance 150). -/
theorem fundAccount_success_effects_witness :
    (wDB.accounts.map Account.id).Nodup
    ∧ findAccountOwned wDB.accounts wInput.accountId 1 = some wAcct
    ∧ wAcct.status = .active
    ∧ (0 : ℚ) < wInput.amount
    ∧ (fundAccount wDB 1 wInput 7).1 =
        .ok { transactionId := wDB.nextTxId, newBalance := wAcct.balance + wInput.amount } :=
  ⟨by decide, by decide, by decide, by decide,
   (fundAccount_success_effects wDB 1 wInput 7 wAcct (by decide) (by decide)
      (by decide) (by decide) (by intro h; cases h)).1⟩

/-- Claim C5.  For every authenticated caller and every accountId that does
not exist or is owned by a different user, `fundAccount` and
`getTransactions` both fail with NOT_FOUND ("Account not found", never a
FORBIDDEN code), and neither call changes the store. -/
theorem not_owner_notFound_no_mutation (db : DB) (uid : Nat) (input : FundInput)
    (now : Int)
    (h : ∀ a ∈ db.accounts, a.id = input.accountId → a.userId ≠ uid) :
    fundAccount db uid input now = (.error (.notFound "Account not found"), db)
    ∧ getTransactions db uid input.accountId = (.error (.notFound "Account not found"), db) := by
  have hnone : findAccountOwned db.accounts input.accountId uid = none := by
    unfold findAccountOwned
    rw [List.find?_eq_none]
    intro a ha
    simp only [Bool.and_eq_true, beq_iff_eq, not_and]
    exact fun hid => h a ha hid
  constructor
  · simp only [fundAccount, hnone]
  · simp only [getTransactions, hnone]

/-- Witness for claim C5: user 2 probing account 1 (owned by user 1) gets
NOT_FOUND from both procedures and the store is unchanged. -/
theorem not_owner_notFound_no_mutation_witness :
    (∀ a ∈ wDB.accounts, a.id = wInput.accountId → a.userId ≠ 2)
    ∧ fundAccount wDB 2 wInput 7 = (.error (.notFound "Account not found"), wDB)
    ∧ getTransactions wDB 2 wInput.accountId = (.error (.notFound "Account not found"), wDB) :=
  ⟨by decide,
   (not_owner_notFound_no_mutation wDB 2 wInput 7 (by decide)).1,
   (not_owner_notFound_no_mutation wDB 2 wInput 7 (by decide)).2⟩

/-- Claim C8.  The checksum used by `fundAccount` is the Luhn algorithm:
4532015112830366 passes, 4532015112830367 fails, a card-type funding
request whose account number fails the checksum is rejected with
BAD_REQUEST ("Invalid card number"), and a bank-type funding request is not
checksum-validated (the same failing number funds successfully). -/
theorem luhn_gate (db : DB) (uid aid : Nat) (amt : ℚ) (now : Int)
    (acct : Account) (n : String)
    (hown : findAccountOwned db.accounts aid uid = some acct)
    (hact : acct.status = .active)
    (hbad : isValidCardNumber n = false) :
    isValidCardNumber "4532015112830366" = true
    ∧ isValidCardNumber "4532015112830367" = false
    ∧ fundAccount db uid
        { accountId := aid, amount := amt, fundingType := .card,
          fundingAccountNumber := n } now = (.error (.badRequest "Invalid card number"), db)
    ∧ ∃ r, (fundAccount db uid
        { accountId := aid, amount := amt, fundingType := .bank,
          fundingAccountNumber := n } now).1 = Except.ok r := by
  refine ⟨by decide, by decide, ?_, ?_⟩
  · simp only [fundAccount, hown]
    rw [if_neg (by simp [hact])]
    rw [if_pos ⟨by trivial, hbad⟩]
  · simp only [fundAccount, hown]
    rw [if_neg (by simp [hact])]
    rw [if_neg (by rintro ⟨h1, h2⟩; cases h1)]
    exact ⟨_, rfl⟩

/-- Witness for claim C8 at the concrete account and the failing card
number from the spec. -/
theorem luhn_gate_witness :
    findAccountOwned wDB.accounts 1 1 = some wAcct
    ∧ wAcct.status = .active
    ∧ isValidCardNumber "4532015112830367" = false
    ∧ fundAccount wDB 1
        { accountId := 1, amount := 50, fundingType := .card,
          fundingAccountNumber := "4532015112830367" } 7 =
        (.error (.badRequest "Invalid card number"), wDB) :=
  ⟨by decide, by decide, by decide,
   (luhn_gate wDB 1 1 50 7 wAcct "4532015112830367"
      (by decide) (by decide) (by decide)).2.2.1⟩

/-- Claim C10.  For every input string containing no decimal digit
character (the empty string included) `isValidCardNumber` returns true —
the stripped digit list is empty and the sum 0 is divisible by 10 — so a
card-type `fundAccount` call with a digit-free account number is not
rejected by the checksum gate and reaches the funding path. -/
theorem digit_free_passes_checksum (s : String) (db : DB) (uid aid : Nat)
    (amt : ℚ) (now : Int) (acct : Account)
    (hs : ∀ c ∈ s.data, c.isDigit = false)
    (hown : findAccountOwned db.accounts aid uid = some acct)
    (hact : acct.status = .active) :
    isValidCardNumber s = true
    ∧ ∃ r, (fundAccount db uid
        { accountId := aid, amount := amt, fundingType := .card,
          fundingAccountNumber := s } now).1 = Except.ok r := by
  have hfil : s.data.filter Char.isDigit = [] :=
    List.filter_eq_nil_iff.mpr (fun c hc => by simp [hs c hc])
  have hvalid : isValidCardNumber s = true := by
    unfold isValidCardNumber
    rw [hfil]
    rfl
  refine ⟨hvalid, ?_⟩
  simp only [fundAccount, hown]
  rw [if_neg (by simp [hact])]
  rw [if_neg (by rintro ⟨h1, h2⟩; rw [hvalid] at h2; cases h2)]
  exact ⟨_, rfl⟩

/-- Witness for claim C10 at the digit-free card number "abc". -/
theorem digit_free_passes_checksum_witness :
    (∀ c ∈ ("abc" : String).data, c.isDigit = false)
    ∧ findAccountOwned wDB.accounts 1 1 = some wAcct
    ∧ wAcct.status = .active
    ∧ isValidCardNumber "abc" = true :=
  ⟨by decide, by decide, by decide,
   (digit_free_passes_checksum "abc" wDB 1 1 50 7 wAcct
      (by decide) (by decide) (by decide)).1⟩

/-- Claim C4.  After every successful login by a user, the sessions of that
user in the store are exactly the one session just inserted (so at most one
Session row for that user exists: login first deletes every prior session
of the user, then inserts exactly one), sessions of other users are
untouched, and the at-most-one property is enforced at login only: signup
never deletes an existing session row. -/
theorem login_single_session (bcryptCompare : String → String → Bool) (db : DB)
    (email password token : String) (now : Int) (user : User)
    (hu : db.users.find? (fun u => u.email == email) = some user)
    (hp : bcryptCompare password user.password = true) :
    (login bcryptCompare db email password token now).2.sessions.filter
        (fun s => s.userId == user.id) =
      [{ token := token, userId := user.id, expiresAt := now + sevenDaysMs }]
    ∧ (∀ s ∈ db.sessions, s.userId ≠ user.id →
        s ∈ (login bcryptCompare db email password token now).2.sessions)
    ∧ (∀ e hpw tok (now2 : Int), ∀ s ∈ db.sessions, s ∈ (signup db e hpw tok now2).2.sessions) := by
  have hlogin : (login bcryptCompare db email password token now).2.sessions =
      (db.sessions.filter (fun s => !(s.userId == user.id))) ++
        [{ token := token, userId := user.id, expiresAt := now + sevenDaysMs }] := by
    simp only [login, hu, hp, if_true]
  refine ⟨?_, ?_, ?_⟩
  · rw [hlogin, List.filter_append]
    have h1 : (db.sessions.filter (fun s => !(s.userId == user.id))).filter
        (fun s => s.userId == user.id) = [] := by
      rw [List.filter_eq_nil_iff]
      intro a ha
      have h2 := (List.mem_filter.mp ha).2
      simp only [Bool.not_eq_eq_eq_not, Bool.not_true] at h2
      simp [h2]
    rw [h1]
    simp
  · intro s hs hne
    rw [hlogin]
    apply List.mem_append_left
    exact List.mem_filter.mpr ⟨hs, by simp [hne]⟩
  · intro e hpw tok now2 s hs
    simp only [signup]
    split
    · exact hs
    · split
      · exact hs
      · exact List.mem_append_left _ hs

/-- Witness for claim C4: a concrete login by the stored user deletes the
two prior sessions of that user and leaves exactly the new one. -/
theorem login_single_session_witness :
    (let db0 : DB := { wDB with sessions :=
        [{ token := "olda", userId := 1, expiresAt := 5 },
         { token := "oldb", userId := 1, expiresAt := 6 },
         { token := "other", userId := 2, expiresAt := 7 }] }
     db0.users.find? (fun u => u.email == "a@b.c") = some wUser
     ∧ (fun (p h : String) => p == h) "h" wUser.password = true
     ∧ (login (fun p h => p == h) db0 "a@b.c" "h" "newtok" 0).2.sessions.filter
          (fun s => s.userId == wUser.id) =
        [{ token := "newtok", userId := wUser.id, expiresAt := 0 + sevenDaysMs }]) :=
  ⟨by decide, by decide,
   (login_single_session (fun p h => p == h) _ "a@b.c" "h" "newtok" 0 wUser
      (by decide) (by decide)).1⟩

/-- Claim C7.  For a user owning no account of type t, a first
`createAccount` succeeds, and the second call with the same accountType
fails with CONFLICT and creates no second account: the store afterwards
holds exactly one account of that type for the user and is unchanged by the
second call. -/
theorem createAccount_conflict_second (db : DB) (uid : Nat) (t : AccountType)
    (cands cands2 : List String) (n : String)
    (hno : findAccountOwnedByType db.accounts uid t = none)
    (hn : firstFresh cands db.accounts = some n) :
    ∃ acct db1,
      createAccount db uid t cands = some (.ok acct, db1)
      ∧ createAccount db1 uid t cands2 =
          some (.error (.conflict ("You already have a " ++ accountTypeStr t ++ " account")), db1)
      ∧ (db1.accounts.filter (fun a => a.userId == uid && a.accountType == t)).length = 1 := by
  have hfresh := firstFresh_spec hn
  have hnone' : ∀ a ∈ db.accounts, ¬(a.userId == uid && a.accountType == t) = true := by
    unfold findAccountOwnedByType at hno
    exact List.find?_eq_none.mp hno
  refine ⟨newAccountRow db uid t n, dbAfterInsertAccount db uid t n, ?_, ?_, ?_⟩
  · have hfind1 : (dbAfterInsertAccount db uid t n).accounts.find?
        (fun a => a.accountNumber == n) = some (newAccountRow db uid t n) := by
      show (db.accounts ++ [newAccountRow db uid t n]).find? _ = _
      rw [find?_append_left_none hfresh]
      simp [newAccountRow]
    simp only [createAccount, hno, hn, hfind1]
  · have hfind2 : findAccountOwnedByType (dbAfterInsertAccount db uid t n).accounts uid t =
        some (newAccountRow db uid t n) := by
      unfold findAccountOwnedByType
      show (db.accounts ++ [newAccountRow db uid t n]).find? _ = _
      rw [find?_append_left_none (List.find?_eq_none.mpr hnone')]
      simp [newAccountRow]
    simp only [createAccount, hfind2]
  · show ((db.accounts ++ [newAccountRow db uid t n]).filter _).length = 1
    rw [List.filter_append, List.filter_eq_nil_iff.mpr hnone']
    simp [newAccountRow]

/-- Witness for claim C7 at the concrete store: user 1 owns a checking
account, has no savings account, and the draw "1111111111" is fresh. -/
theorem createAccount_conflict_second_witness :
    findAccountOwnedByType wDB.accounts 1 .savings = none
    ∧ firstFresh ["1111111111"] wDB.accounts = some "1111111111"
    ∧ (∃ acct db1,
        createAccount wDB 1 .savings ["1111111111"] = some (.ok acct, db1)
        ∧ createAccount db1 1 .savings ["2222222222"] =
            some (.error (.conflict ("You already have a " ++ accountTypeStr .savings ++ " account")), db1)
        ∧ (db1.accounts.filter (fun a => a.userId == 1 && a.accountType == .savings)).length = 1) :=
  ⟨by decide, by decide,
   createAccount_conflict_second wDB 1 .savings ["1111111111"] ["2222222222"] "1111111111"
     (by decide) (by decide)⟩

/-- A completed deposit of 10 into account 1 at time 100. -/
def wTxA : Transaction :=
  { id := 1, accountId := 1, typ := .deposit, amount := 10,
    description := "Funding from bank", status := .completed,
    createdAt := 100, processedAt := 100 }

/-- A completed deposit of 20 into account 1 at time 200. -/
def wTxB : Transaction :=
  { id := 2, accountId := 1, typ := .deposit, amount := 20,
    description := "Funding from bank", status := .completed,
    createdAt := 200, processedAt := 200 }

/-- A completed deposit of 30 into account 1 at time 300. -/
def wTxC : Transaction :=
  { id := 3, accountId := 1, typ := .deposit, amount := 30,
    description := "Funding from card", status := .completed,
    createdAt := 300, processedAt := 300 }

/-- The store `wDB` holding three transactions inserted with increasing
timestamps. -/
def wDBt : DB := { wDB with transactions := [wTxA, wTxB, wTxC], nextTxId := 4 }

/-- Claim C9.  For every account the caller owns, `getTransactions` returns
exactly the transactions of that account (a permutation of the rows whose
accountId matches), ordered newest-first by createdAt with ties broken by
descending id (the total order `txNewerEq`), each row enriched with the
owning account's accountType computed at read time, and the store is
unchanged. -/
theorem getTransactions_ordered_enriched (db : DB) (uid aid : Nat) (acct : Account)
    (hnd : (db.accounts.map Account.id).Nodup)
    (hown : findAccountOwned db.accounts aid uid = some acct) :
    ∃ out, getTransactions db uid aid = (.ok out, db)
    ∧ List.Perm (out.map EnrichedTx.tx) (db.transactions.filter (fun t => t.accountId == aid))
    ∧ List.Sorted txNewerEq (out.map EnrichedTx.tx)
    ∧ (∀ e ∈ out, e.accountType = some acct.accountType) := by
  have hid : findAccountById db.accounts aid = some acct := findById_of_findOwned hnd hown
  have hget : getTransactions db uid aid =
      (.ok (((db.transactions.filter (fun t => t.accountId == aid)).insertionSort
          txNewerEq).map (fun t => { tx := t, accountType :=
            (findAccountById db.accounts t.accountId).map Account.accountType })), db) := by
    simp only [getTransactions, hown]
  have hmap : ((((db.transactions.filter (fun t => t.accountId == aid)).insertionSort
      txNewerEq).map (fun t => ({ tx := t, accountType :=
        (findAccountById db.accounts t.accountId).map Account.accountType } : EnrichedTx))).map
      EnrichedTx.tx)
      = (db.transactions.filter (fun t => t.accountId == aid)).insertionSort txNewerEq := by
    rw [List.map_map]
    exact List.map_id _
  refine ⟨_, hget, ?_, ?_, ?_⟩
  · rw [hmap]
    exact List.perm_insertionSort txNewerEq _
  · rw [hmap]
    exact List.sorted_insertionSort txNewerEq _
  · intro e he
    obtain ⟨t, ht, rfl⟩ := List.mem_map.mp he
    have htf : t ∈ db.transactions.filter (fun t => t.accountId == aid) :=
      (List.mem_insertionSort txNewerEq).mp ht
    have haid : t.accountId = aid := beq_iff_eq.mp (List.mem_filter.mp htf).2
    simp [haid, hid]

/-- Witness for claim C9 at the concrete store of three transactions. -/
theorem getTransactions_ordered_enriched_witness :
    (wDBt.accounts.map Account.id).Nodup
    ∧ findAccountOwned wDBt.accounts 1 1 = some wAcct
    ∧ (∃ out, getTransactions wDBt 1 1 = (.ok out, wDBt)
        ∧ List.Perm (out.map EnrichedTx.tx)
            (wDBt.transactions.filter (fun t => t.accountId == 1))
        ∧ List.Sorted txNewerEq (out.map EnrichedTx.tx)
        ∧ (∀ e ∈ out, e.accountType = some wAcct.accountType)) :=
  ⟨by decide, by decide,
   getTransactions_ordered_enriched wDBt 1 1 wAcct (by decide) (by decide)⟩
